import Mathlib

/-!
Verification of the ppmac session/protocol engine

A shallow embedding of the core of the `ppmac` repository:

* `ppmac/pp_comm.py` — the line transport (`ShellChannel.read_timeout`),
  the pattern-wait engine (`_wait_for` / `ShellChannel.wait_for`), the
  gpascii command-response channel (`get_variable`, `set_variable`) and the
  coordinate-system transaction (`set_coords`, `get_motor_coords`);
* `ppmac/fast_gather.py` — the binary telemetry client
  (`GatherClient._recv_packet`, `_get_type`, `get_rows`, `get_columns`);
* `ppmac/gather_types.py` — the fixed gather type table (`GATHER_TYPES`);
* `ppmac/gather.py` — the gather configuration (`get_sample_count`,
  `get_duration`, `get_settings`).

Python strings are modelled as lists of characters (`PStr`), so that every
operation is an executable structural recursion.  Python byte strings are
lists of byte values (`List Nat`).  Python floats are modelled as exact
rationals.  Generators that are driven until either a value is produced or
the underlying channel is exhausted are modelled as functions over the
finite list of lines the channel delivers, together with a flag telling
whether the generator raises `TimeoutError` when that list is exhausted
(which is what `ShellChannel.read_timeout` does whenever its `timeout`
argument is positive).
-/

deriving instance DecidableEq for Except

namespace Ppmac

/-- Python strings, modelled as lists of characters. -/
abbrev PStr := List Char

/-- Coerce a Lean string literal to the `PStr` model. -/
def pstr (s : String) : PStr := s.data

/-- Decimal rendering of a natural number, as used by Python `'%d' % n`
and `'%s' % n`. -/
def natPStr (n : Nat) : PStr := (toString n).data

/-- Find the first occurrence of `sep` in `s`: returns the part before the
occurrence and the part after it, or `none` if `sep` does not occur.
This is the search underlying Python's `sep in s` test and
`s.split(sep, 1)`. -/
def splitFirst? (sep : PStr) : PStr → Option (PStr × PStr)
  | [] => none
  | c :: t =>
    if sep.isPrefixOf (c :: t) then some ([], (c :: t).drop sep.length)
    else
      match splitFirst? sep t with
      | none => none
      | some (pre, post) => some (c :: pre, post)

/-- Python's substring test `sub in s`. -/
def pyContains (s sub : PStr) : Bool :=
  sub.isEmpty || (splitFirst? sub s).isSome

/-- Fuelled worker for `pySplit`; `s.length + 1` fuel always suffices
because every found occurrence strictly shortens the remainder. -/
def pySplitFuel (sep : PStr) : Nat → PStr → List PStr
  | 0, s => [s]
  | fuel + 1, s =>
    match splitFirst? sep s with
    | none => [s]
    | some (pre, post) => pre :: pySplitFuel sep fuel post

/-- Python's `s.split(sep)` for a nonempty separator `sep`. -/
def pySplit (sep s : PStr) : List PStr :=
  if sep.isEmpty then [s] else pySplitFuel sep (s.length + 1) s

/-- Python's `s.endswith(suffix)`. -/
def pyEndsWith (s suffix : PStr) : Bool := suffix.isSuffixOf s

/-- Python's `s.rstrip()`: drop trailing whitespace. -/
def pyRstrip (s : PStr) : PStr := (s.reverse.dropWhile Char.isWhitespace).reverse

/-- Python's `s.lower()` (ASCII case folding). -/
def pyLower (s : PStr) : PStr := s.map Char.toLower

/-- Python's `s.startswith(prefix)`. -/
def pyStartsWith (s pre : PStr) : Bool := pre.isPrefixOf s

/-!
Line transport: `ShellChannel.read_timeout` (pp_comm.py lines 176-220)

The generator keeps an accumulation buffer `buf`; whenever data is
available it appends the received chunk, splits on the delimiter, and
yields the `rstrip`ped complete segments, retaining the remainder:

```python
buf += channel.recv(1024)
lines = buf.split(delim)
if not buf.endswith(delim):
    buf = lines[-1]
    lines = lines[:-1]
else:
    buf = ''
for line in lines:
    yield line.rstrip()
```

When the wall-clock timeout elapses and no data is pending the loop exits
and, `if timeout > 0`, raises `TimeoutError`.  We model the run in which
the chunks in the list arrive (in order) before the deadline and the
channel then stays quiet: the generator yields the lines produced by the
buffering loop above and finally raises exactly when `0 < timeout`.
(`timeout=None` makes the Python loop spin forever and is not modelled.)
-/

/-- One buffer-splitting step of `read_timeout`: Python's
`lines = buf.split(delim)` followed by the `buf.endswith(delim)` branch.
Returns the list of segments yielded in this iteration and the retained
buffer. -/
def read_split (delim buf : PStr) : List PStr × PStr :=
  let lines := pySplit delim buf
  if pyEndsWith buf delim then (lines, [])
  else (lines.dropLast, lines.getLastD [])

/-- The sequence of lines yielded by `read_timeout` on a given sequence of
received chunks, starting from buffer `buf` (each yielded line is
`rstrip`ped, as in the source). -/
def read_timeout_lines (delim : PStr) : PStr → List PStr → List PStr
  | _, [] => []
  | buf, chunk :: rest =>
    let step := read_split delim (buf ++ chunk)
    step.1.map pyRstrip ++ read_timeout_lines delim step.2 rest

/-- The `ShellChannel.read_timeout(timeout, delim)` on the run in which
`chunks` arrive before the deadline and the channel then stays quiet:
the yielded lines, and whether the generator ends by raising
`TimeoutError` (it does iff `timeout > 0`). -/
def read_timeout (timeout : ℚ) (delim : PStr) (chunks : List PStr) :
    List PStr × Bool :=
  (read_timeout_lines delim [] chunks, decide (0 < timeout))

/-!
Pattern-wait engine: `_wait_for` and `ShellChannel.wait_for`
(pp_comm.py lines 73-110 and 134-152)

`_wait_for(generator, wait_pattern, remove_matching, ...)` is a generator:
for each (rstripped) line it first yields a match pair if the line equals
the pattern's literal text or `re.match` succeeds on it, then — only when
the line matches none of the noise regexes (`remove_matching` plus the
module-level `PPMAC_MESSAGES`) — yields the pair `(line, None)`.
`ShellChannel.wait_for` drives it, appending every yielded line to `ret`,
and returns `(ret, groups)` at the first pair whose groups are not `None`;
if the `_wait_for` generator is exhausted it returns `False`, and an
exception raised by the underlying `read_timeout` generator (such as
`TimeoutError`) propagates.

A compiled regular expression is modelled abstractly by the function
`matchAt` it induces (Python `pattern.match(line)`, returning the groups
on success), paired with the literal text of the pattern, which
`_wait_for` compares against the whole line first.  Noise regexes are
modelled by their induced Boolean match functions.
-/

/-- Errors raised by the communication layer of `pp_comm.py`. -/
inductive PPErr
  /-- The `TimeoutError` -/
  | timeout
  /-- The `GPError(line)` -/
  | gp (line : PStr)
  /-- The `ValueError` (e.g. from `int(value, 16)` on a malformed literal) -/
  | valueError
  deriving Repr, DecidableEq

/-- A wait pattern: its literal source text, and the match function of its
compiled regex (`re.compile(text).match`, start-anchored, returning the
captured groups on success). -/
structure WaitPattern where
  text : PStr
  matchAt : PStr → Option (List (Option PStr))

/-- The noise regexes `PPMAC_MESSAGES` (pp_comm.py lines 53-56), as the
Boolean functions induced by `re.match`:
`.*\/\/ \*\*\* exit` matches any line containing `// *** exit` (since `.`
matches everything but a newline and lines carry none),
`^UnlinkGatherThread:.*` and `^\/\/ \*\*\* EOF` match by prefix. -/
def PPMAC_MESSAGES : List (PStr → Bool) :=
  [fun line => pyContains line (pstr "// *** exit"),
   fun line => pyStartsWith line (pstr "UnlinkGatherThread:"),
   fun line => pyStartsWith line (pstr "// *** EOF")]

/-- The target test of `_wait_for` on one (already rstripped) line: the
literal-equality check `line == wait_pattern` yields a zero-group match,
otherwise `wait_re.match(line)` is consulted. -/
def targetGroups (p : WaitPattern) (line : PStr) : Option (List (Option PStr)) :=
  if line = p.text then some [] else p.matchAt line

/-- The `ShellChannel.wait_for` driving the `_wait_for` generator over the
lines the source delivers. `acc` is the consumer's `ret` list; `raisesEnd`
tells whether the underlying line generator raises `TimeoutError` when its
lines are exhausted (cf. `read_timeout`).  Returns `.ok (some (ret,
groups))` on a match, `.ok none` for Python's `False`, and `.error
.timeout` when the exhausted generator raises. -/
def wait_for_lines (p : WaitPattern) (noise : List (PStr → Bool))
    (raisesEnd : Bool) (acc : List PStr) : List PStr → Except PPErr (Option (List PStr × List (Option PStr)))
  | [] => if raisesEnd then .error .timeout else .ok none
  | l :: rest =>
    let line := pyRstrip l
    match targetGroups p line with
    | some groups => .ok (some (acc ++ [line], groups))
    | none =>
      if noise.any (fun f => f line) then
        wait_for_lines p noise raisesEnd acc rest
      else
        wait_for_lines p noise raisesEnd (acc ++ [line]) rest

/-- The `ShellChannel.wait_for(wait_pattern, timeout, remove_matching)`:
`_wait_for` is run with `remove_matching + PPMAC_MESSAGES` as the noise
set (the default `remove_ppmac_messages=True`), over the lines of
`read_timeout(timeout)`. -/
def wait_for (p : WaitPattern) (remove_matching : List (PStr → Bool))
    (timeout : ℚ) (chunks : List PStr) :
    Except PPErr (Option (List PStr × List (Option PStr))) :=
  let gen := read_timeout timeout (pstr "\r\n") chunks
  wait_for_lines p (remove_matching ++ PPMAC_MESSAGES) gen.2 [] gen.1

/-!
Command-response channel: `GpasciiChannel.get_variable` /
`set_variable` (pp_comm.py lines 269-303)

`get_variable(var, type_, timeout)` lower-cases `var`, sends it, and scans
the lines yielded by `read_timeout(timeout)`:

```python
for line in self.read_timeout(timeout=timeout):
    if 'error' in line:
        raise GPError(line)
    if '=' in line:
        vname, value = line.split('=', 1)
        if var == vname.lower():
            if value.startswith('$'):
                value = int(value[1:], 16)
            return type_(value)
```

If the loop ends without a match the method returns `None` — but with the
default `timeout=1.0 > 0` the exhausted `read_timeout` generator raises
`TimeoutError` first, which propagates.  The `raisesEnd` flag models that,
exactly as in `wait_for_lines`.

The conversion `type_` receives the raw string value, or a Python `int`
when the value carried a leading `$` (hexadecimal); it is modelled as a
function out of `PyVal`.
-/

/-- The argument Python passes to `type_`: the textual value, or the
integer parsed from a `$`-prefixed hexadecimal value. -/
inductive PyVal
  | str (s : PStr)
  | int (n : Nat)
  deriving Repr, DecidableEq

/-- Value of one hexadecimal digit. -/
def hexDigit? (c : Char) : Option Nat :=
  if '0' ≤ c ∧ c ≤ '9' then some (c.toNat - '0'.toNat)
  else if 'a' ≤ c ∧ c ≤ 'f' then some (c.toNat - 'a'.toNat + 10)
  else if 'A' ≤ c ∧ c ≤ 'F' then some (c.toNat - 'A'.toNat + 10)
  else none

/-- Python `int(s, 16)` restricted to plain hexadecimal digit strings;
anything else is a `ValueError` (modelled as `none`). -/
def hexVal? (s : PStr) : Option Nat :=
  if s.isEmpty then none
  else s.foldl (fun acc c =>
    match acc, hexDigit? c with
    | some a, some d => some (a * 16 + d)
    | _, _ => none) (some 0)

/-- The `type_=str`: Python's `str` applied to the value `get_variable`
extracted (the identity on strings, decimal rendering on ints). -/
def pyStrOf : PyVal → PStr
  | .str s => s
  | .int n => natPStr n

/-- Does line `line` echo variable `lvar` (`lvar` already lower-cased)?
Python: `'=' in line and lvar == line.split('=', 1)[0].lower()`. -/
def matchesVar (lvar line : PStr) : Bool :=
  match splitFirst? (pstr "=") line with
  | none => false
  | some (vname, _) => lvar = pyLower vname

/-- The value `get_variable` hands to `type_` for a matching line: the
part after the first `=`, parsed as hexadecimal when it starts with `$`.
`none` models the `ValueError` of `int(value[1:], 16)` on a malformed
hexadecimal literal. -/
def parsedValue? (line : PStr) : Option PyVal :=
  match splitFirst? (pstr "=") line with
  | none => none
  | some (_, value) =>
    if pyStartsWith value (pstr "$") then (hexVal? (value.drop 1)).map .int
    else some (.str value)

/-- The scanning loop of `get_variable` over the delivered lines (`var`
already lower-cased).  `.ok none` models Python's implicit `None` return
on normal generator exhaustion; `.error .timeout` the `TimeoutError`
raised instead whenever the generator's timeout was positive. -/
def get_variable_scan (var : PStr) (conv : PyVal → α) (raisesEnd : Bool) :
    List PStr → Except PPErr (Option α)
  | [] => if raisesEnd then .error .timeout else .ok none
  | line :: rest =>
    if pyContains line (pstr "error") then .error (.gp line)
    else if matchesVar var line then
      match parsedValue? line with
      | some v => .ok (some (conv v))
      | none => .error .valueError
    else get_variable_scan var conv raisesEnd rest

/-- The `GpasciiChannel.get_variable(var, type_)` over the response lines the
channel delivers: lower-cases `var` and scans. -/
def get_variable (var : PStr) (conv : PyVal → α) (lines : List PStr)
    (raisesEnd : Bool) : Except PPErr (Option α) :=
  get_variable_scan (pyLower var) conv raisesEnd lines

/-- The `GpasciiChannel.set_variable(var, value, check)`: lower-cases `var`,
sends `'%s=%s' % (var, value)` and, when `check` is set, returns the value
re-read through `get_variable(var)` (which sends `var` again).  The result
is the pair (lines sent, returned value); with `check=False` Python
returns `None`. -/
def set_variable (var value : PStr) (check : Bool) (conv : PyVal → α)
    (lines : List PStr) (raisesEnd : Bool) :
    List PStr × Except PPErr (Option α) :=
  let v := pyLower var
  ((v ++ pstr "=" ++ value) :: (if check then [v] else []),
   if check then get_variable v conv lines raisesEnd else .ok none)

/-!
Coordinate-system transaction: `GpasciiChannel.set_coords`
(pp_comm.py lines 436-504) and `get_motor_coords` (lines 422-434)

A coordinate mapping (Python dict of dicts
`{coord: {motor: axis, ...}, ...}`) is modelled as an insertion-ordered
association list.  `set_coords` issues, in order:

1. `get_variable('sys.maxcoords')` (the query itself is a sent line), and
   a `set_variable('sys.maxcoords', max_coord + 1)` when it must grow;
2. `&%dabort` for each coordinate system in the new mapping;
3. `undefine all`, or `&%dundefine` per touched system, per the flags;
4. the query traffic of `get_motor_coords()` (a `sys.maxmotors` read and
   one `&0#%d->` probe per motor number below it);
5. an unbind `&%d#%d->0` (with the motor's *current* system) for every
   motor of the new mapping that is currently in some system;
6. a bind `&%d#%d->%s` for every motor of the new mapping;
7. when `check` is set, the query traffic of a verifying `get_coords()`.

We model the full sequence of lines sent over the channel.  The responses
the device gives to the queries are parameters: `cur_maxcoords` (the
`sys.maxcoords` read), `num_motors` (the `sys.maxmotors` read inside
`get_coords`) and `motor_to_coord` (the table `get_motor_coords` builds).
-/

/-- A coordinate mapping `{coord: {motor: axis}}` as an insertion-ordered
association list. -/
abbrev CoordMap := List (Nat × List (Nat × PStr))

/-- Lines sent by `get_variable(var)`: the (lower-cased) variable name. -/
def get_variable_sends (var : PStr) : List PStr := [pyLower var]

/-- Lines sent by `set_variable(var, value, check=True)`: the assignment,
then the `get_variable` re-read. -/
def set_variable_sends (var value : PStr) : List PStr :=
  (pyLower var ++ pstr "=" ++ value) :: get_variable_sends (pyLower var)

/-- Lines sent by `get_coord(motor)`: the probe `'&0#%d->' % motor`. -/
def get_coord_sends (motor : Nat) : List PStr :=
  [pstr "&0#" ++ natPStr motor ++ pstr "->"]

/-- Lines sent by `get_coords()`: a `sys.maxmotors` read, then one probe
per motor number in `range(num_motors)`. -/
def get_coords_sends (num_motors : Nat) : List PStr :=
  get_variable_sends (pstr "sys.maxmotors") ++
    (List.range num_motors).flatMap get_coord_sends

/-- Lines sent by `get_motor_coords()` (it only calls `get_coords`). -/
def get_motor_coords_sends (num_motors : Nat) : List PStr :=
  get_coords_sends num_motors

/-- The motor→coordinate-system table `get_motor_coords` derives from a
`get_coords` result: iterating the dict in order, so a later entry for the
same motor overwrites an earlier one. -/
def get_motor_coords_table (coords : CoordMap) (motor : Nat) : Option Nat :=
  coords.foldl (fun acc entry =>
    entry.2.foldl (fun a ma => if ma.1 = motor then some entry.1 else a) acc)
    none

/-- The unbind command `'&%d#%d->0' % (coord, motor)`. -/
def unbind_cmd (coord motor : Nat) : PStr :=
  pstr "&" ++ natPStr coord ++ pstr "#" ++ natPStr motor ++ pstr "->0"

/-- The bind command `'&%d#%d->%s' % (coord, motor, assigned)`. -/
def bind_cmd (coord motor : Nat) (assigned : PStr) : PStr :=
  pstr "&" ++ natPStr coord ++ pstr "#" ++ natPStr motor ++ pstr "->" ++ assigned

/-- Python `max(coords.keys())` (callers guarantee `coords` nonempty). -/
def max_coord_of (coords : CoordMap) : Nat :=
  (coords.map Prod.fst).foldl max 0

/-- The full sequence of lines `set_coords(coords, undefine_coord,
undefine_all, check)` sends, given the device's responses to its queries
(`cur_maxcoords`, `num_motors`, `motor_to_coord`). -/
def set_coords_sends (coords : CoordMap) (cur_maxcoords : Int)
    (num_motors : Nat) (motor_to_coord : Nat → Option Nat)
    (undefine_coord undefine_all check : Bool) : List PStr :=
  if coords.isEmpty then []
  else
    let max_coord := max_coord_of coords
    (get_variable_sends (pstr "sys.maxcoords") ++
      (if (max_coord : Int) > cur_maxcoords then
        set_variable_sends (pstr "sys.maxcoords") (natPStr (max_coord + 1))
      else []) ++
      coords.flatMap (fun entry => [pstr "&" ++ natPStr entry.1 ++ pstr "abort"]) ++
      (if undefine_all then [pstr "undefine all"]
       else if undefine_coord then
        coords.flatMap (fun entry => [pstr "&" ++ natPStr entry.1 ++ pstr "undefine"])
       else []) ++
      get_motor_coords_sends num_motors) ++
    coords.flatMap (fun entry => entry.2.flatMap (fun ma =>
      match motor_to_coord ma.1 with
      | some cur => [unbind_cmd cur ma.1]
      | none => [])) ++
    (coords.flatMap (fun entry => entry.2.flatMap (fun ma =>
      [bind_cmd entry.1 ma.1 ma.2])) ++
     (if check then get_coords_sends num_motors else []))

/-!
Binary telemetry client: `GatherClient` (fast_gather.py)

Bytes are modelled as natural numbers below 256; a received byte stream is
a `List Nat`.
-/

/-- Errors of the fast-gather client. -/
inductive FgErr
  /-- The `GatherError('Error %d' % error_code)`: the server sent an `E`
  frame whose payload carries this 4-byte big-endian error code. -/
  | gatherError (code : Nat)
  /-- The `RuntimeError('Unexpected code ...')`: a frame whose code is
  neither `E` nor the expected one. -/
  | unexpectedCode (got : List Nat) (expected : Nat)
  /-- The `struct.error`: fewer bytes than the format requires. -/
  | structError
  /-- The `RuntimeError('Connection lost')` from `recv_fixed`. -/
  | connectionLost
  deriving Repr, DecidableEq

/-- Big-endian value of a byte string (`struct.unpack('>I', ...)` when the
input has four bytes). -/
def beVal (bytes : List Nat) : Nat :=
  bytes.foldl (fun acc b => acc * 256 + b) 0

/-- The four big-endian bytes of a 32-bit value. -/
def beBytes4 (n : Nat) : List Nat :=
  [n / 2 ^ 24 % 256, n / 2 ^ 16 % 256, n / 2 ^ 8 % 256, n % 256]

/-- The byte value of the frame code `E`. -/
def codeE : Nat := 69

/-- The `GatherClient._recv_packet(expected_code)` (fast_gather.py lines
93-117) applied to the received byte stream: reads the 4-byte big-endian
packet length, receives that many bytes (`RuntimeError` if the connection
is lost first), splits off the 1-byte code, and then:

```python
if code == b'E':
    error_code, = struct.unpack('>I', packet[:4])
    raise GatherError('Error %d' % error_code)
elif expected_code == code:
    return memoryview(packet)
else:
    raise RuntimeError('Unexpected code ...')
```
-/
def recv_packet (expected : Nat) (stream : List Nat) : Except FgErr (List Nat) :=
  if stream.length < 4 then .error .structError
  else
    let packet_len := beVal (stream.take 4)
    let rest := stream.drop 4
    if rest.length < packet_len then .error .connectionLost
    else
      let packet := rest.take packet_len
      let code := packet.take 1
      let payload := packet.drop 1
      if code = [codeE] then
        if payload.length < 4 then .error .structError
        else .error (.gatherError (beVal (payload.take 4)))
      else if code = [expected] then .ok payload
      else .error (.unexpectedCode code expected)

/-!
Gather type decoding: `GATHER_TYPES` (gather_types.py lines 51-63)
and `GatherClient._get_type` (fast_gather.py lines 178-207)
-/

/-- The post-processing conversion functions appearing in the gather type
table: `conv_int24` (sign-extending 3-byte decode over `4B`-unpacked byte
quadruples) and the packed-bitfield extractors built by
`make_conv_bits`. -/
inductive GatherConv
  | convInt24
  | convBits (start count : Nat)
  deriving Repr, DecidableEq

/-- The per-word extraction performed by the function `make_conv_bits
(start, count)` returns: `(value >> start) & ((1 << count) - 1)`. -/
def conv_bits_val (start count value : Nat) : Nat :=
  (value >>> start) &&& ((1 <<< count) - 1)

/-- The `make_conv_bits(start, count)` itself: the elementwise map of
`conv_bits_val` over the unpacked column. -/
def make_conv_bits (start count : Nat) (values : List Nat) : List Nat :=
  values.map (conv_bits_val start count)

/-- The fixed gather type table `GATHER_TYPES`
(`UINT32, INT32, UINT24, INT24, FLOAT, DOUBLE, UBITS, SBITS = range(8)`):
each known code maps to (byte size, struct format character, optional
conversion). -/
def GATHER_TYPES : Nat → Option (Nat × PStr × Option GatherConv)
  | 0 => some (4, pstr "I", none)
  | 1 => some (4, pstr "i", none)
  | 2 => some (4, pstr "I", none)
  | 3 => some (4, pstr "4B", some .convInt24)
  | 4 => some (4, pstr "f", none)
  | 5 => some (8, pstr "d", none)
  | 6 => some (4, pstr "I", none)
  | 7 => some (4, pstr "I", none)
  | _ => none

/-- The `GatherClient.START_MASK`. -/
def START_MASK : Nat := 0xF800

/-- The `GatherClient.BIT_MASK`. -/
def BIT_MASK : Nat := 0x07FF

/-- The `GatherClient._get_type(type_)`: a known code is looked up in
`GATHER_TYPES`; any other code is decoded as a packed-bitfield
descriptor:

```python
start = (type_ & self.START_MASK) >> 11
count = (type_ & self.BIT_MASK)
count = 32 - (count >> 6)
ret = (4, 'I', make_conv_bits(start, count))
```

(The Python caches `ret` into the `GATHER_TYPES` dict; the cached entry
equals what this pure function returns.) -/
def get_type (type_ : Nat) : Nat × PStr × Option GatherConv :=
  match GATHER_TYPES type_ with
  | some info => info
  | none =>
    let start := (type_ &&& START_MASK) >>> 11
    let count := 32 - ((type_ &&& BIT_MASK) >>> 6)
    (4, pstr "I", some (.convBits start count))

/-!
`get_rows` / `get_columns` (fast_gather.py lines 260-289)

`_query_all` returns `(data, n_items, samples)` where `data` is the list
of per-address columns; it is modelled as a parameter.  The Python:

```python
def get_rows(self, as_numpy=False):
    if as_numpy:
        return self.get_rows(as_numpy=as_numpy).T
    else:
        data, n_items, samples = self._query_all()
        return list(zip(*data))
```

The `as_numpy` branch calls `get_rows` itself again with the same
argument, so the recursion never reaches a base case; we model general
recursion with explicit fuel (each recursive call costs one unit, `none`
meaning the call has not returned within the given fuel, for any fuel). -/

/-- Fuelled worker for `pyZip`: one unit of fuel per produced row.  The
row count of `zip(*cols)` is the length of the shortest column, so the
length of the first column is always enough fuel. -/
def pyZipFuel : Nat → List (List Int) → List (List Int)
  | 0, _ => []
  | fuel + 1, cols =>
    if cols.isEmpty || cols.any List.isEmpty then []
    else cols.map (·.headD 0) :: pyZipFuel fuel (cols.map (·.tail))

/-- Python `list(zip(*cols))`: tuples of the i-th elements of every
column, stopping at the shortest column; `zip()` of no iterables is
empty. -/
def pyZip (cols : List (List Int)) : List (List Int) :=
  pyZipFuel (cols.headD []).length cols

/-- The result of `_query_all()`: the flat per-address columns, the
address count, and the sample count. -/
structure QueryAll where
  data : List (List Int)
  n_items : Nat
  samples : Nat

/-- numpy's transpose of the (row-tuple) result, `result.T`; on the
list-of-rows model it is again `pyZip`. -/
def npTranspose (rows : List (List Int)) : List (List Int) := pyZip rows

/-- The `GatherClient.get_rows(as_numpy)` with fuel-bounded recursion: the
`as_numpy=True` branch re-invokes `get_rows` with the same argument and
transposes its (never produced) result; the `as_numpy=False` branch
returns `list(zip(*data))` of the queried columns. -/
def get_rows (q : QueryAll) : Bool → Nat → Option (List (List Int))
  | true, 0 => none
  | true, fuel + 1 => (get_rows q true fuel).map npTranspose
  | false, _ => some (pyZip q.data)

/-- The `GatherClient.get_columns(as_numpy=False)`: returns the queried
columns directly. -/
def get_columns (q : QueryAll) : List (List Int) := q.data

/-!
Gather configuration: `gather.py` lines 36-68

Python floats are modelled as exact rationals; `int(x)` on a nonnegative
`x` truncates, i.e. takes the floor (for negative `x` it rounds toward
zero, i.e. takes the ceiling).
-/

/-- Python `int(x)`: truncation toward zero. -/
def pyInt (q : ℚ) : ℤ := if 0 ≤ q then ⌊q⌋ else ⌈q⌉

/-- The `gather.get_sample_count(servo_period, gather_period, duration)`:
`int(duration / (servo_period * gather_period))`. -/
def get_sample_count (servo_period gather_period duration : ℚ) : ℤ :=
  pyInt (duration / (servo_period * gather_period))

/-- The `gather.get_duration(servo_period, gather_period, samples)`:
`int(samples) * (servo_period * gather_period)`. -/
def get_duration (servo_period gather_period : ℚ) (samples : ℤ) : ℚ :=
  (samples : ℚ) * (servo_period * gather_period)

/-- Decimal rendering of an integer (`'%d' % samples`). -/
def intPStr (z : ℤ) : PStr :=
  match z with
  | .ofNat n => natPStr n
  | .negSucc n => '-' :: natPStr (n + 1)

/-- The `gather.get_settings(servo_period, addresses, gather_period,
duration, samples)`: the configuration lines for the gather subsystem.
When `samples` is given, the duration is recomputed from it; otherwise
the sample count is derived from the duration (`get_sample_count`). -/
def get_settings (servo_period : ℚ) (addresses : List PStr)
    (gather_period : ℤ) (duration : ℚ) (samples : Option ℤ) : List PStr :=
  let n : ℤ :=
    match samples with
    | some s => s
    | none => get_sample_count servo_period (gather_period : ℚ) duration
  (pstr "gather.enable=0" ::
    (addresses.enum.map (fun p =>
      pstr "gather.addr[" ++ natPStr p.1 ++ pstr "]=" ++ p.2))) ++
  [pstr "gather.items=" ++ natPStr addresses.length,
   pstr "gather.Period=" ++ intPStr gather_period,
   pstr "gather.enable=1",
   pstr "gather.enable=0",
   pstr "gather.MaxSamples=" ++ intPStr n]

/-!
Helper lemmas
-/

theorem charToLower_eq_self (d : Char) (h : ¬(d.toNat ≥ 65 ∧ d.toNat ≤ 90)) :
    d.toLower = d := by
  unfold Char.toLower
  exact if_neg h

theorem charToLower_idem (c : Char) : c.toLower.toLower = c.toLower := by
  by_cases h : c.toNat ≥ 65 ∧ c.toNat ≤ 90
  · have h1 : c.toLower = Char.ofNat (c.toNat + 32) := by
      unfold Char.toLower
      exact if_pos h
    have hv : (c.toNat + 32).isValidChar := Or.inl (by omega)
    have h2 : c.toLower.toNat = c.toNat + 32 := by
      rw [h1, Char.ofNat, dif_pos hv]
      rfl
    apply charToLower_eq_self
    rw [h2]
    omega
  · rw [charToLower_eq_self c h]
    exact charToLower_eq_self c h

theorem pyLower_idem (s : PStr) : pyLower (pyLower s) = pyLower s := by
  unfold pyLower
  rw [List.map_map]
  exact List.map_congr_left (fun c _ => charToLower_idem c)

/-- If `a` occurs in the middle segment and `b` in the final segment of a
three-segment concatenation, then `a` occurs at a strictly earlier index
than `b`. -/
theorem mem_segments_ordered {α : Type} (A U C : List α) (a b : α)
    (ha : a ∈ U) (hb : b ∈ C) :
    ∃ i j : Nat, i < j ∧ (A ++ U ++ C)[i]? = some a ∧ (A ++ U ++ C)[j]? = some b := by
  obtain ⟨u1, u2, rfl⟩ := List.append_of_mem ha
  obtain ⟨c1, c2, rfl⟩ := List.append_of_mem hb
  refine ⟨(A ++ u1).length, (A ++ (u1 ++ a :: u2) ++ c1).length, ?_, ?_, ?_⟩
  · simp [List.length_append]
  · have h1 : A ++ (u1 ++ a :: u2) ++ (c1 ++ b :: c2)
        = (A ++ u1) ++ (a :: (u2 ++ (c1 ++ b :: c2))) := by
      simp [List.append_assoc]
    rw [h1, List.getElem?_append_right (Nat.le_refl _)]
    simp
  · have h2 : A ++ (u1 ++ a :: u2) ++ (c1 ++ b :: c2)
        = (A ++ (u1 ++ a :: u2) ++ c1) ++ (b :: c2) := by
      simp [List.append_assoc]
    rw [h2, List.getElem?_append_right (Nat.le_refl _)]
    simp

theorem beVal_beBytes4 (n : Nat) (h : n < 2 ^ 32) : beVal (beBytes4 n) = n := by
  simp only [beVal, beBytes4, List.foldl]
  omega

theorem shiftRight_distrib_and (a b c : Nat) :
    (a &&& b) >>> c = (a >>> c) &&& (b >>> c) := by
  apply Nat.eq_of_testBit_eq
  intro i
  simp [Nat.testBit_shiftRight, Nat.testBit_and]

/-!
C7 — chunking invariance of `read_timeout`
-/

/-- C7: the claim says `read_timeout` yields exactly the original lines,
in order, for every fragmentation of the delimiter-joined byte stream.
The code violates this: the delimiter-joined stream of the lines
`["a", "b"]` is `"a\r\nb" = "a" ++ "\r\n" ++ "b"`, and delivering it as
the single chunk `"a\r\nb"` yields `["a"]` while delivering it as
`"a\r\n"` then `"b"` yields `["a", ""]` — a spurious empty line is
emitted whenever a received chunk ends exactly with the delimiter
(the `buf.endswith(delim)` branch of the source keeps the empty final
segment of `buf.split(delim)`), so the yields depend on the
fragmentation and differ from the original lines. -/
theorem read_timeout_chunking_dependent :
    pstr "a\r\nb" = pstr "a" ++ pstr "\r\n" ++ pstr "b" ∧
    pstr "a\r\n" ++ pstr "b" = pstr "a\r\nb" ∧
    (read_timeout 5 (pstr "\r\n") [pstr "a\r\nb"]).1 = [pstr "a"] ∧
    (read_timeout 5 (pstr "\r\n") [pstr "a\r\n", pstr "b"]).1 = [pstr "a", pstr ""] ∧
    (read_timeout 5 (pstr "\r\n") [pstr "a\r\nb"]).1 ≠
      (read_timeout 5 (pstr "\r\n") [pstr "a\r\n", pstr "b"]).1 ∧
    (read_timeout 5 (pstr "\r\n") [pstr "a\r\nb"]).1 ≠ [pstr "a", pstr "b"] := by
  decide

/-!
C9 — gather sample count
-/

/-- C9: the gather sample count is `int(duration / (servo_period *
gather_period))`, exact truncation: with `duration = 2.0`,
`gather_period = 1` and `servo_period = 0.000442673749446657994` the
count is 4517 (and the `gather.MaxSamples` line of `get_settings` carries
it), while rounding the same quotient would give 4518. -/
theorem get_sample_count_truncates :
    get_sample_count (442673749446657994 / 10 ^ 21) 1 2 = 4517 ∧
    (get_settings (442673749446657994 / 10 ^ 21) [] 1 2 none).getLastD []
      = pstr "gather.MaxSamples=4517" ∧
    round ((2 : ℚ) / ((442673749446657994 / 10 ^ 21) * 1)) = 4518 := by
  have hcount : get_sample_count (442673749446657994 / 10 ^ 21) 1 2 = 4517 := by
    unfold get_sample_count pyInt
    rw [if_pos (by norm_num)]
    have h : ((2 : ℚ) / ((442673749446657994 / 10 ^ 21) * 1) : ℚ)
        = ((2000000000000000000000 : ℤ) : ℚ) / ((442673749446657994 : ℕ) : ℚ) := by
      norm_num
    rw [h, Rat.floor_intCast_div_natCast]
    decide
  refine ⟨hcount, ?_, ?_⟩
  · simp only [get_settings, Int.cast_one, hcount]
    decide
  · rw [round_eq]
    have h : ((2 : ℚ) / ((442673749446657994 / 10 ^ 21) * 1) : ℚ) + 1 / 2
        = ((4000442673749446657994 : ℤ) : ℚ) / ((885347498893315988 : ℕ) : ℚ) := by
      norm_num
    rw [h, Rat.floor_intCast_div_natCast]
    decide

/-!
C10 — `get_rows(as_numpy=True)` never returns
-/

/-- C10: the `as_numpy=True` branch of `get_rows` re-invokes `get_rows`
with the same argument (instead of transposing `get_columns`), so it
never returns a value no matter how much recursion depth (fuel) is
allowed; only `get_rows(as_numpy=False)` queries the server and returns
the row-major data `list(zip(*data))`. -/
theorem get_rows_numpy_diverges :
    (∀ (q : QueryAll) (fuel : Nat), get_rows q true fuel = none) ∧
    (∀ (q : QueryAll) (fuel : Nat), get_rows q false fuel = some (pyZip q.data)) := by
  constructor
  · intro q fuel
    induction fuel with
    | zero => rfl
    | succ n ih => simp [get_rows, ih]
  · intro q fuel
    cases fuel <;> rfl

/-!
C6 — `set_variable` returns the read-back value
-/

/-- C6: `set_variable(var, value, check=True)` sends `var=value`
(lower-cased name) followed by the re-read query, and returns exactly
`get_variable(var)` — the value read back from the device.  On a device
whose response echoes `x=4` after `x=5` was sent, the returned value is
the read-back `4`, not the sent `5`. -/
theorem set_variable_check_semantics :
    (∀ (α : Type) (var value : PStr) (conv : PyVal → α) (lines : List PStr)
        (raisesEnd : Bool),
      set_variable var value true conv lines raisesEnd =
        ([pyLower var ++ pstr "=" ++ value, pyLower var],
         get_variable var conv lines raisesEnd)) ∧
    (set_variable (pstr "x") (pstr "5") true pyStrOf [pstr "x=4"] true).2
      = .ok (some (pstr "4")) ∧
    pstr "4" ≠ pstr "5" := by
  refine ⟨?_, by decide, by decide⟩
  intro α var value conv lines raisesEnd
  simp [set_variable, get_variable, pyLower_idem]

/-!
C5 — frame code handling of `_recv_packet`
-/

/-- Reduction of `recv_packet` on a well-formed frame: the length prefix
is consumed and the branching is on the code byte. -/
theorem recv_packet_frame (expected : Nat) (packet : List Nat)
    (hlen : packet.length < 2 ^ 32) :
    recv_packet expected (beBytes4 packet.length ++ packet) =
      if packet.take 1 = [codeE] then
        if (packet.drop 1).length < 4 then .error .structError
        else .error (.gatherError (beVal ((packet.drop 1).take 4)))
      else if packet.take 1 = [expected] then .ok (packet.drop 1)
      else .error (.unexpectedCode (packet.take 1) expected) := by
  unfold recv_packet
  have hb : (beBytes4 packet.length).length = 4 := by simp [beBytes4]
  have hlen4 : (beBytes4 packet.length ++ packet).length = 4 + packet.length := by
    simp [beBytes4]
    omega
  rw [if_neg (by omega)]
  have ht : (beBytes4 packet.length ++ packet).take 4 = beBytes4 packet.length := by
    rw [← hb, List.take_left]
  have hd : (beBytes4 packet.length ++ packet).drop 4 = packet := by
    rw [← hb, List.drop_left]
  rw [ht, hd, beVal_beBytes4 packet.length hlen]
  rw [if_neg (lt_irrefl packet.length), List.take_length]

/-- C5: an `E` frame makes `_recv_packet` raise `GatherError` carrying the
4-byte big-endian error code of the payload, regardless of the expected
code; a frame whose code is neither `E` nor the expected one raises the
protocol-violation `RuntimeError`; and a payload is returned only when
the code equals the expected one (and is not `E`). -/
theorem recv_packet_code_spec (expected : Nat) (packet : List Nat)
    (hlen : packet.length < 2 ^ 32) :
    (packet.take 1 = [codeE] → 5 ≤ packet.length →
      recv_packet expected (beBytes4 packet.length ++ packet) =
        .error (.gatherError (beVal ((packet.drop 1).take 4)))) ∧
    (∀ d, recv_packet expected (beBytes4 packet.length ++ packet) = .ok d →
      packet.take 1 = [expected] ∧ packet.take 1 ≠ [codeE] ∧ d = packet.drop 1) ∧
    (packet.take 1 ≠ [codeE] → packet.take 1 ≠ [expected] →
      recv_packet expected (beBytes4 packet.length ++ packet) =
        .error (.unexpectedCode (packet.take 1) expected)) := by
  rw [recv_packet_frame expected packet hlen]
  refine ⟨?_, ?_, ?_⟩
  · intro hE h5
    rw [if_pos hE, if_neg (by simp [List.length_drop]; omega)]
  · intro d hok
    by_cases hE : packet.take 1 = [codeE]
    · rw [if_pos hE] at hok
      by_cases h4 : (packet.drop 1).length < 4
      · rw [if_pos h4] at hok
        exact absurd hok (by simp)
      · rw [if_neg h4] at hok
        exact absurd hok (by simp)
    · rw [if_neg hE] at hok
      by_cases hX : packet.take 1 = [expected]
      · rw [if_pos hX] at hok
        refine ⟨hX, hE, ?_⟩
        simpa using hok.symm
      · rw [if_neg hX] at hok
        exact absurd hok (by simp)
  · intro h1 h2
    rw [if_neg h1, if_neg h2]

/-- Witness for C5: a concrete `E` frame (with the expected code `D` =
68) raises `GatherError 258` and a concrete `T` frame received when `D`
was expected raises the protocol violation. -/
theorem recv_packet_code_spec_witness :
    recv_packet 68 (beBytes4 5 ++ [69, 0, 0, 1, 2]) = .error (.gatherError 258) ∧
    recv_packet 68 (beBytes4 2 ++ [84, 7]) = .error (.unexpectedCode [84] 68) := by
  constructor
  · exact (recv_packet_code_spec 68 [69, 0, 0, 1, 2] (by decide)).1 (by decide) (by decide)
  · exact (recv_packet_code_spec 68 [84, 7] (by decide)).2.2 (by decide) (by decide)

/-!
C8 — packed-bitfield gather types
-/

/-- C8: any 16-bit gather type code outside the eight fixed codes decodes
as a 4-byte `I` (32-bit word) type whose conversion extracts
`(v >> start) & ((1 << width) - 1)` with `start = (code & 0xF800) >> 11`
(the top 5 bits of the code) and `width = 32 - ((code & 0x07FF) >> 6)`;
arithmetically the extraction is `v / 2^start % 2^width`. -/
theorem get_type_bitfield (code : Nat) (h8 : 8 ≤ code) (h16 : code < 2 ^ 16) :
    get_type code =
      (4, pstr "I",
        some (.convBits ((code &&& 0xF800) >>> 11) (32 - ((code &&& 0x07FF) >>> 6)))) ∧
    (code &&& 0xF800) >>> 11 = code / 2 ^ 11 % 2 ^ 5 ∧
    32 - ((code &&& 0x07FF) >>> 6) = 32 - code % 2 ^ 11 / 2 ^ 6 ∧
    ∀ v, conv_bits_val ((code &&& 0xF800) >>> 11) (32 - ((code &&& 0x07FF) >>> 6)) v
        = v / 2 ^ (code / 2 ^ 11 % 2 ^ 5) % 2 ^ (32 - code % 2 ^ 11 / 2 ^ 6) := by
  have htable : GATHER_TYPES code = none := by
    obtain ⟨n, rfl⟩ : ∃ n, code = n + 8 := ⟨code - 8, by omega⟩
    rfl
  have hstart : (code &&& 0xF800) >>> 11 = code / 2 ^ 11 % 2 ^ 5 := by
    rw [shiftRight_distrib_and]
    have h2 : (0xF800 : Nat) >>> 11 = 2 ^ 5 - 1 := by decide
    rw [h2, Nat.and_pow_two_sub_one_eq_mod, Nat.shiftRight_eq_div_pow]
  have hcount : (code &&& 0x07FF) >>> 6 = code % 2 ^ 11 / 2 ^ 6 := by
    have h2 : (0x07FF : Nat) = 2 ^ 11 - 1 := by decide
    rw [h2, Nat.and_pow_two_sub_one_eq_mod, Nat.shiftRight_eq_div_pow]
  refine ⟨?_, hstart, by rw [hcount], ?_⟩
  · simp [get_type, htable, START_MASK, BIT_MASK]
  · intro v
    unfold conv_bits_val
    rw [Nat.one_shiftLeft, Nat.and_pow_two_sub_one_eq_mod,
      Nat.shiftRight_eq_div_pow, hstart, hcount]

/-- Witness for C8: code `0x1234` decodes with start bit 2 and width 24,
and extracting from the word 20 gives `20 / 2^2 % 2^24 = 5`. -/
theorem get_type_bitfield_witness :
    get_type 0x1234 = (4, pstr "I", some (.convBits 2 24)) ∧
    conv_bits_val 2 24 20 = 20 / 2 ^ 2 % 2 ^ 24 := by
  constructor
  · exact (get_type_bitfield 0x1234 (by decide) (by decide)).1
  · exact (get_type_bitfield 0x1234 (by decide) (by decide)).2.2.2 20

/-!
C1, C2 — the pattern-wait engine
-/

/-- If the target matches no line of the source, `wait_for` scans to the
end and either propagates the generator's final `TimeoutError` or returns
`False`. -/
theorem wait_for_lines_no_match (p : WaitPattern) (noise : List (PStr → Bool))
    (raisesEnd : Bool) :
    ∀ lines : List PStr, (∀ l ∈ lines, targetGroups p (pyRstrip l) = none) →
    ∀ acc, wait_for_lines p noise raisesEnd acc lines =
      if raisesEnd then .error .timeout else .ok none := by
  intro lines
  induction lines with
  | nil =>
    intro _ acc
    rfl
  | cons h t ih =>
    intro hall acc
    have hh : targetGroups p (pyRstrip h) = none := hall h (by simp)
    have ht : ∀ l ∈ t, targetGroups p (pyRstrip l) = none :=
      fun l hl => hall l (by simp [hl])
    cases hn : noise.any (fun f => f (pyRstrip h)) with
    | true =>
      simp only [wait_for_lines, hh, hn, if_true]
      exact ih ht acc
    | false =>
      simp only [wait_for_lines, hh, hn, Bool.false_eq_true, if_false]
      exact ih ht (acc ++ [pyRstrip h])

/-- If no line before `l` target-matches and `l` target-matches with
groups `gs`, `wait_for` returns a match carrying exactly `gs`, whatever
the noise patterns say about `l`. -/
theorem wait_for_lines_first_match (p : WaitPattern) (noise : List (PStr → Bool))
    (raisesEnd : Bool) (l : PStr) (post : List PStr) (gs : List (Option PStr))
    (hl : targetGroups p (pyRstrip l) = some gs) :
    ∀ pre : List PStr, (∀ x ∈ pre, targetGroups p (pyRstrip x) = none) →
    ∀ acc, ∃ collected,
      wait_for_lines p noise raisesEnd acc (pre ++ l :: post)
        = .ok (some (collected, gs)) := by
  intro pre
  induction pre with
  | nil =>
    intro _ acc
    exact ⟨acc ++ [pyRstrip l], by simp [wait_for_lines, hl]⟩
  | cons h t ih =>
    intro hall acc
    have hh : targetGroups p (pyRstrip h) = none := hall h (by simp)
    have ht : ∀ x ∈ t, targetGroups p (pyRstrip x) = none :=
      fun x hx => hall x (by simp [hx])
    cases hn : noise.any (fun f => f (pyRstrip h)) with
    | true =>
      simp only [List.cons_append, wait_for_lines, hh, hn, if_true]
      exact ih ht acc
    | false =>
      simp only [List.cons_append, wait_for_lines, hh, hn, Bool.false_eq_true,
        if_false]
      exact ih ht (acc ++ [pyRstrip h])

/-- A line matching no target but some noise pattern leaves no trace: the
result over any line sequence containing it equals the result over the
sequence without it (so it is neither returned as a match nor collected). -/
theorem wait_for_lines_skip_noise (p : WaitPattern) (noise : List (PStr → Bool))
    (raisesEnd : Bool) (l : PStr) (post : List PStr)
    (h1 : targetGroups p (pyRstrip l) = none)
    (h2 : noise.any (fun f => f (pyRstrip l)) = true) :
    ∀ pre acc, wait_for_lines p noise raisesEnd acc (pre ++ l :: post)
      = wait_for_lines p noise raisesEnd acc (pre ++ post) := by
  intro pre
  induction pre with
  | nil =>
    intro acc
    simp [wait_for_lines, h1, h2]
  | cons h t ih =>
    intro acc
    cases hh : targetGroups p (pyRstrip h) with
    | some g => simp [wait_for_lines, hh]
    | none =>
      cases hn : noise.any (fun f => f (pyRstrip h)) with
      | true =>
        simp only [List.cons_append, wait_for_lines, hh, hn, if_true]
        exact ih acc
      | false =>
        simp only [List.cons_append, wait_for_lines, hh, hn, Bool.false_eq_true,
          if_false]
        exact ih (acc ++ [pyRstrip h])

/-- C2: noise filtering happens after target matching.  First conjunct: a
line `l` that target-matches (with groups `gs`) and is the first line to
do so is returned as the match carrying `gs`, for *every* noise set —
in particular when `l` also matches a noise pattern.  Second conjunct: a
line matching only a noise pattern is dropped as if it never arrived, so
it is neither returned as a match nor included in the collected lines. -/
theorem wait_for_noise_priority (p : WaitPattern) (rm : List (PStr → Bool))
    (raisesEnd : Bool) (pre : List PStr) (l : PStr) (post : List PStr) :
    ((∀ x ∈ pre, targetGroups p (pyRstrip x) = none) →
      ∀ gs, targetGroups p (pyRstrip l) = some gs →
      ∃ collected,
        wait_for_lines p (rm ++ PPMAC_MESSAGES) raisesEnd [] (pre ++ l :: post)
          = .ok (some (collected, gs))) ∧
    (targetGroups p (pyRstrip l) = none →
      (rm ++ PPMAC_MESSAGES).any (fun f => f (pyRstrip l)) = true →
      wait_for_lines p (rm ++ PPMAC_MESSAGES) raisesEnd [] (pre ++ l :: post)
        = wait_for_lines p (rm ++ PPMAC_MESSAGES) raisesEnd [] (pre ++ post)) :=
  ⟨fun hpre gs hl =>
    wait_for_lines_first_match p (rm ++ PPMAC_MESSAGES) raisesEnd l post gs hl pre hpre [],
   fun h1 h2 =>
    wait_for_lines_skip_noise p (rm ++ PPMAC_MESSAGES) raisesEnd l post h1 h2 pre []⟩

/-- A pattern used in the concrete instances: literal text `OK`, whose
compiled regex matches lines starting with `OK` (no capture groups). -/
def patOK : WaitPattern :=
  ⟨pstr "OK", fun l => if pyStartsWith l (pstr "OK") then some [] else none⟩

/-- Concrete noise set: one pattern also matching every `OK`-prefixed
line, one matching exactly `noise`. -/
def noiseOK : List (PStr → Bool) :=
  [fun l => pyStartsWith l (pstr "OK"), fun l => l == pstr "noise"]

/-- Witness for C2 at concrete inputs: the line `OKAY` matches both the
target and a noise pattern yet is returned as the match; the line
`noise`, matching only noise, leaves the run unchanged. -/
theorem wait_for_noise_priority_witness :
    (∃ collected,
      wait_for_lines patOK (noiseOK ++ PPMAC_MESSAGES) true []
        [pstr "a", pstr "OKAY"] = .ok (some (collected, []))) ∧
    wait_for_lines patOK (noiseOK ++ PPMAC_MESSAGES) true []
        [pstr "a", pstr "noise", pstr "b"]
      = wait_for_lines patOK (noiseOK ++ PPMAC_MESSAGES) true []
        [pstr "a", pstr "b"] :=
  ⟨(wait_for_noise_priority patOK noiseOK true [pstr "a"] (pstr "OKAY") []).1
      (by decide) [] (by decide),
   (wait_for_noise_priority patOK noiseOK true [pstr "a"] (pstr "noise")
      [pstr "b"]).2 (by decide) (by decide)⟩

/-- The pattern `y` of the C1 instances: matches lines starting with
`y`. -/
def patY : WaitPattern :=
  ⟨pstr "y", fun l => if pyStartsWith l (pstr "y") then some [] else none⟩

/-- C1 counterexample: a source exhausted by the timeout (here
`timeout = 5 > 0`, delivering only the non-matching line `x`) makes
`ShellChannel.wait_for` raise `TimeoutError` — it does not return the
sentinel `False` (modelled `.ok none`), contrary to the claim. -/
theorem wait_for_timeout_counterexample :
    wait_for patY [] 5 [pstr "x\r\n"] = .error .timeout ∧
    Except.error PPErr.timeout ≠
      (Except.ok none : Except PPErr (Option (List PStr × List (Option PStr)))) := by
  constructor
  · decide
  · decide

/-- C1 (amended): when the source is exhausted with no line matching the
target, `wait_for` propagates the `TimeoutError` that `read_timeout`
raises whenever its timeout is positive — regardless of whether complete
lines were produced — and returns the sentinel `False` only when the
line generator terminates without raising (timeout ≤ 0). -/
theorem wait_for_exhausted_behavior (p : WaitPattern) (rm : List (PStr → Bool))
    (timeout : ℚ) (chunks : List PStr)
    (hnone : ∀ l ∈ (read_timeout timeout (pstr "\r\n") chunks).1,
      targetGroups p (pyRstrip l) = none) :
    wait_for p rm timeout chunks =
      if 0 < timeout then .error .timeout else .ok none := by
  unfold wait_for
  rw [wait_for_lines_no_match p (rm ++ PPMAC_MESSAGES) _ _ hnone []]
  by_cases hp : 0 < timeout <;> simp [read_timeout, hp]

/-- Witness for C1 (amended): with `timeout = 0` the generator ends
without raising and `wait_for` returns `False`. -/
theorem wait_for_exhausted_behavior_witness :
    wait_for patY [] 0 [pstr "x\r\n"] = .ok none := by
  have h := wait_for_exhausted_behavior patY [] 0 [pstr "x\r\n"] (by decide)
  simpa using h

/-!
C3 — `get_variable`
-/

/-- C3 counterexample: querying `aerror` answered by the single matching
line `aerror=1` raises `GPError` (the line contains the substring
`error`), whereas the claim demands the converted value `1` of the first
matching line — the `'error' in line` check fires on the matching line
itself, not only on lines received before it. -/
theorem get_variable_claim_counterexample :
    get_variable (pstr "aerror") pyStrOf [pstr "aerror=1"] true
      = .error (.gp (pstr "aerror=1")) ∧
    get_variable (pstr "aerror") pyStrOf [pstr "aerror=1"] true
      ≠ .ok (some (pstr "1")) := by
  constructor
  · decide
  · decide

/-- C3 (amended): `get_variable` returns the converted value of the first
`name=value` line whose echoed name equals the requested name
case-insensitively (a `$`-prefixed value parsed as hexadecimal), ignoring
earlier lines that echo a different name, provided no line up to *and
including* the matching line contains the substring `error`; and it
raises `GPError` on the first line containing `error` encountered before
any match. -/
theorem get_variable_semantics {α : Type} (var : PStr) (conv : PyVal → α) :
    (∀ (pre : List PStr) (l : PStr) (post : List PStr) (raisesEnd : Bool),
      (∀ x ∈ pre, pyContains x (pstr "error") = false ∧
        matchesVar (pyLower var) x = false) →
      pyContains l (pstr "error") = false →
      matchesVar (pyLower var) l = true →
      get_variable var conv (pre ++ l :: post) raisesEnd =
        match parsedValue? l with
        | some v => .ok (some (conv v))
        | none => .error .valueError) ∧
    (∀ (pre : List PStr) (e : PStr) (post : List PStr) (raisesEnd : Bool),
      (∀ x ∈ pre, pyContains x (pstr "error") = false ∧
        matchesVar (pyLower var) x = false) →
      pyContains e (pstr "error") = true →
      get_variable var conv (pre ++ e :: post) raisesEnd = .error (.gp e)) := by
  constructor
  · intro pre l post raisesEnd hpre herr hmatch
    unfold get_variable
    induction pre with
    | nil =>
      cases hv : parsedValue? l <;>
        simp [get_variable_scan, herr, hmatch, hv]
    | cons h t ih =>
      obtain ⟨hh1, hh2⟩ := hpre h (by simp)
      simp only [List.cons_append, get_variable_scan, hh1, hh2,
        Bool.false_eq_true, if_false]
      exact ih (fun x hx => hpre x (by simp [hx]))
  · intro pre e post raisesEnd hpre herr
    unfold get_variable
    induction pre with
    | nil =>
      simp [get_variable_scan, herr]
    | cons h t ih =>
      obtain ⟨hh1, hh2⟩ := hpre h (by simp)
      simp only [List.cons_append, get_variable_scan, hh1, hh2,
        Bool.false_eq_true, if_false]
      exact ih (fun x hx => hpre x (by simp [hx]))

/-- Witness for C3 (amended): a case-insensitive match after an ignored
different-name line (`Foo` answered by `bar=1` then `fOo=2` yields `2`),
a hexadecimal value (`x=$1a` yields `26`), and a `GPError` on an
`error`-bearing line. -/
theorem get_variable_semantics_witness :
    get_variable (pstr "Foo") pyStrOf [pstr "bar=1", pstr "fOo=2"] true
      = .ok (some (pstr "2")) ∧
    get_variable (pstr "x") pyStrOf [pstr "x=$1a"] true
      = .ok (some (pstr "26")) ∧
    get_variable (pstr "x") pyStrOf [pstr "stdin error"] true
      = .error (.gp (pstr "stdin error")) :=
  ⟨(get_variable_semantics (pstr "Foo") pyStrOf).1 [pstr "bar=1"] (pstr "fOo=2")
      [] true (by decide) (by decide) (by decide),
   (get_variable_semantics (pstr "x") pyStrOf).1 [] (pstr "x=$1a")
      [] true (by decide) (by decide) (by decide),
   (get_variable_semantics (pstr "x") pyStrOf).2 [] (pstr "stdin error")
      [] true (by decide) (by decide)⟩

/-!
C4 — unbind precedes bind in `set_coords`
-/

/-- C4: in the command sequence issued by `set_coords`, for every motor
`m` of the desired mapping that is currently bound to some coordinate
system `cCur`, the unbind command `&cCur#m->0` is issued strictly before
the bind command `&cTarget#m->axis`. -/
theorem set_coords_unbind_before_bind
    (coords : CoordMap) (cur_maxcoords : Int) (num_motors : Nat)
    (motor_to_coord : Nat → Option Nat) (uc ua chk : Bool)
    (cTarget cCur m : Nat) (motors : List (Nat × PStr)) (ax : PStr)
    (hmem : (cTarget, motors) ∈ coords) (hma : (m, ax) ∈ motors)
    (hcur : motor_to_coord m = some cCur) :
    ∃ i j : Nat, i < j ∧
      (set_coords_sends coords cur_maxcoords num_motors motor_to_coord uc ua chk)[i]?
        = some (unbind_cmd cCur m) ∧
      (set_coords_sends coords cur_maxcoords num_motors motor_to_coord uc ua chk)[j]?
        = some (bind_cmd cTarget m ax) := by
  have hne : coords.isEmpty = false := by
    cases coords
    · simp at hmem
    · rfl
  have ha : unbind_cmd cCur m ∈ coords.flatMap (fun entry =>
      entry.2.flatMap (fun ma =>
        match motor_to_coord ma.1 with
        | some cur => [unbind_cmd cur ma.1]
        | none => [])) := by
    refine List.mem_flatMap.mpr ⟨(cTarget, motors), hmem, ?_⟩
    refine List.mem_flatMap.mpr ⟨(m, ax), hma, ?_⟩
    simp [hcur]
  have hb : bind_cmd cTarget m ax ∈ coords.flatMap (fun entry =>
        entry.2.flatMap (fun ma => [bind_cmd entry.1 ma.1 ma.2])) ++
      (if chk then get_coords_sends num_motors else []) := by
    apply List.mem_append_left
    refine List.mem_flatMap.mpr ⟨(cTarget, motors), hmem, ?_⟩
    refine List.mem_flatMap.mpr ⟨(m, ax), hma, ?_⟩
    simp
  simpa only [set_coords_sends, hne, Bool.false_eq_true, if_false] using
    mem_segments_ordered _ _ _ _ _ ha hb

/-- Witness for C4 on the spec's example: with existing mapping
`{1: {5: 'x'}}` and desired mapping `{2: {5: 'y'}}` the unbind of motor 5
from system 1 precedes its bind in system 2. -/
theorem set_coords_unbind_before_bind_witness :
    ∃ i j : Nat, i < j ∧
      (set_coords_sends [(2, [(5, pstr "y")])] 16 6
        (get_motor_coords_table [(1, [(5, pstr "x")])]) false false true)[i]?
        = some (unbind_cmd 1 5) ∧
      (set_coords_sends [(2, [(5, pstr "y")])] 16 6
        (get_motor_coords_table [(1, [(5, pstr "x")])]) false false true)[j]?
        = some (bind_cmd 2 5 (pstr "y")) :=
  set_coords_unbind_before_bind [(2, [(5, pstr "y")])] 16 6
    (get_motor_coords_table [(1, [(5, pstr "x")])]) false false true
    2 1 5 [(5, pstr "y")] (pstr "y") (by decide) (by decide) (by decide)

end Ppmac
